import Mathlib

/-!
Shallow embedding of YaroslavGit28/Argparse_Python.

Two source files:
* `src/main.py` — a task tracker: `Task` dataclass and `TaskRepository`
  (load/save to a JSON file, next_id, add, find, update_status, delete,
  all, filter_by_status).
* `src/argparse_demo.py` — an argparse teaching demo; we embed the exit-code
  logic of its `main` function.

Modelling conventions:
* Python `int` is `Int`; Python `str` is `String`.
* `datetime.now().isoformat(timespec="seconds")` is an abstract `now : String`
  parameter threaded into the operations that call it.
* The backing JSON file is modelled at the parsed-document level: a `FileState`
  that is absent, malformed (unparseable / wrong shape), or a list of records
  with the seven task fields (the shape `asdict` writes and `from_dict` reads).
  `json.dump`/`json.load` of such documents is the identity at this level.
* Console output (rich panels, prints) is dropped; where the code reports an
  error to the console we return it as an `Option String`.
* Python methods that mutate `self` become functions returning the new
  repository state.
-/

namespace TaskTracker

/-- The seven-field record `dataclasses.asdict` produces for a `Task` and
`Task.from_dict` consumes (src/main.py lines 36-46, 74-77). -/
structure TaskDict where
  id : Int
  title : String
  description : String
  status : String
  priority : Int
  created_at : String
  updated_at : String
deriving DecidableEq, Repr

/-- The `Task` dataclass (src/main.py lines 26-34). -/
structure Task where
  id : Int
  title : String
  description : String
  status : String
  priority : Int
  created_at : String
  updated_at : String
deriving DecidableEq, Repr

/-- Embeds `Task.from_dict` (src/main.py lines 36-46): reads the seven fields out of
the parsed record. -/
def Task.from_dict (data : TaskDict) : Task :=
  { id := data.id
    title := data.title
    description := data.description
    status := data.status
    priority := data.priority
    created_at := data.created_at
    updated_at := data.updated_at }

/-- Embeds `dataclasses.asdict(task)` as used in `TaskRepository._save`
(src/main.py line 75). -/
def Task.asdict (task : Task) : TaskDict :=
  { id := task.id
    title := task.title
    description := task.description
    status := task.status
    priority := task.priority
    created_at := task.created_at
    updated_at := task.updated_at }

/-- The backing document (`self.path`) as seen by `_load`/`_save`: the file is
absent, or exists but `json.load` / the `from_dict` comprehension raises (any
exception, carried as a message), or parses into a list of task records. -/
inductive FileState where
  | absent
  | malformed (err : String)
  | valid (doc : List TaskDict)
deriving DecidableEq, Repr

/-- State of a `TaskRepository`: the in-memory `self.tasks` list and the backing
document contents (src/main.py lines 49-53). -/
structure TaskRepository where
  tasks : List Task
  file : FileState
deriving DecidableEq, Repr

/-- Embeds `TaskRepository._load` (src/main.py lines 55-72): absent file gives an
empty collection; a parse/shape failure is reported (the red error panel,
returned here as `some err`) and the collection falls back to empty; a valid
document is mapped through `Task.from_dict`. Total: construction never
fails. -/
def TaskRepository._load (file : FileState) : List Task × Option String :=
  match file with
  | .absent => ([], none)
  | .malformed err => ([], some err)
  | .valid doc => (doc.map Task.from_dict, none)

/-- Embeds `TaskRepository.__init__` (src/main.py lines 50-53): records the path
(here: the file state) and loads. Also returns the reported load error, if
any. -/
def TaskRepository.init (file : FileState) : TaskRepository × Option String :=
  let loaded := TaskRepository._load file
  ({ tasks := loaded.1, file := file }, loaded.2)

/-- Embeds `TaskRepository._save` (src/main.py lines 74-77): serializes the whole
in-memory collection through `asdict` and rewrites the backing document. -/
def TaskRepository._save (repo : TaskRepository) : TaskRepository :=
  { repo with file := .valid (repo.tasks.map Task.asdict) }

/-- Python's `max(task.id for task in tasks)` for a nonempty head/tail split: Python's
`max` folds `max` over the generator starting from the first element. -/
def maxIdFrom (b : Int) (tasks : List Task) : Int :=
  tasks.foldl (fun m t => max m t.id) b

/-- Embeds `TaskRepository.next_id` (src/main.py lines 79-82): `1` on an empty
collection, otherwise `max(task.id for task in self.tasks) + 1`. -/
def nextIdList (tasks : List Task) : Int :=
  match tasks with
  | [] => 1
  | t :: ts => maxIdFrom t.id ts + 1

/-- Wraps `next_id` over the repository state. -/
def TaskRepository.next_id (repo : TaskRepository) : Int :=
  nextIdList repo.tasks

/-- Embeds `TaskRepository.add` (src/main.py lines 84-97): builds the new task with
`next_id`, status `"todo"`, both timestamps equal to `now`, appends it,
saves, and returns it. -/
def TaskRepository.add (repo : TaskRepository) (title description : String)
    (priority : Int) (now : String) : Task × TaskRepository :=
  let task : Task :=
    { id := repo.next_id
      title := title
      description := description
      status := "todo"
      priority := priority
      created_at := now
      updated_at := now }
  (task, TaskRepository._save { repo with tasks := repo.tasks ++ [task] })

/-- Embeds `TaskRepository.find` (src/main.py lines 99-103): first task whose id
matches, `None` otherwise. -/
def findTask (tasks : List Task) (task_id : Int) : Option Task :=
  match tasks with
  | [] => none
  | t :: ts => if t.id = task_id then some t else findTask ts task_id

/-- Wraps `find` over the repository state. -/
def TaskRepository.find (repo : TaskRepository) (task_id : Int) : Option Task :=
  findTask repo.tasks task_id

/-- In-place mutation of the task `find` returned: the first task whose id
matches gets `status := new_status` and `updated_at := now`; the rest of the
list is untouched (src/main.py lines 109-110, where the found object is
mutated inside `self.tasks`). -/
def updateFirst (tasks : List Task) (task_id : Int) (new_status now : String) :
    List Task :=
  match tasks with
  | [] => []
  | t :: ts =>
    if t.id = task_id then
      { t with status := new_status, updated_at := now } :: ts
    else
      t :: updateFirst ts task_id new_status now

/-- Embeds `TaskRepository.update_status` (src/main.py lines 105-112): `find` the id;
on `None` return `False` without touching anything; otherwise mutate the found
task's status and `updated_at`, save, return `True`. (`if not task` on a
dataclass instance is `task is None`: dataclasses are always truthy.) -/
def TaskRepository.update_status (repo : TaskRepository) (task_id : Int)
    (new_status now : String) : Bool × TaskRepository :=
  match findTask repo.tasks task_id with
  | none => (false, repo)
  | some _ =>
    (true, TaskRepository._save
      { repo with tasks := updateFirst repo.tasks task_id new_status now })

/-- Embeds `TaskRepository.delete` (src/main.py lines 114-120): keep the tasks whose
id differs; if the length did not change return `False` (no save), otherwise
save and return `True`. -/
def TaskRepository.delete (repo : TaskRepository) (task_id : Int) :
    Bool × TaskRepository :=
  let remaining := repo.tasks.filter (fun t => t.id ≠ task_id)
  if remaining.length = repo.tasks.length then
    (false, repo)
  else
    (true, TaskRepository._save { repo with tasks := remaining })

/-- Embeds `TaskRepository.all` (src/main.py lines 122-123): `list(self.tasks)` — the
current collection in insertion order (the list-copy aspect has no content at
the value level). -/
def TaskRepository.all (repo : TaskRepository) : List Task :=
  repo.tasks

/-- Embeds `TaskRepository.filter_by_status` (src/main.py lines 125-126). -/
def TaskRepository.filter_by_status (repo : TaskRepository) (status : String) :
    List Task :=
  repo.tasks.filter (fun t => t.status = status)

/-- One `add` call's inputs: title, description, priority, and the wall-clock
reading `datetime.now().isoformat(timespec="seconds")` at that call. -/
def AddInput : Type := String × String × Int × String

/-- Trace of a sequence of `add` calls from a starting state: for each call,
the collection as it was before that call, paired with the id assigned. -/
def addSeq (repo : TaskRepository) : List AddInput → List (List Task × Int)
  | [] => []
  | (title, descr, prio, now) :: rest =>
    let step := repo.add title descr prio now
    (repo.tasks, step.1.id) :: addSeq step.2 rest

/-- Concrete fixture task, used to instantiate universally quantified
statements. -/
def sampleTask : Task :=
  { id := 1
    title := "T"
    description := ""
    status := "todo"
    priority := 2
    created_at := "2024-01-01T00:00:00"
    updated_at := "2024-01-01T00:00:00" }

/-- Concrete fixture repository holding `sampleTask`. -/
def sampleRepo : TaskRepository :=
  { tasks := [sampleTask], file := .absent }

end TaskTracker

namespace ArgparseDemo

/-!
Embedding of the exit-code logic of `main` in src/argparse_demo.py
(lines 271-295). Argument parsing itself (`parser.parse_args`) is the
argparse library, an external collaborator; we embed what `main` does after a
successful parse, parameterized by whether the parsed namespace carries a
`func` attribute and by what the invoked handler does (returns normally,
raises `SystemExit`, or raises another exception).
-/

/-- The payload a Python `SystemExit` carries (`e.code`): `None`, an `int`,
or a `str` (the three shapes `sys.exit`/`SystemExit` receive in practice;
every `raise SystemExit(...)` in src/argparse_demo.py passes a `str`). -/
inductive PyExitArg where
  | noneArg
  | intArg (n : Int)
  | strArg (s : String)
deriving DecidableEq, Repr

/-- Python truthiness of a `SystemExit` payload: `None` and `0` and `""` are
falsy. -/
def pyTruthy : PyExitArg → Bool
  | .noneArg => false
  | .intArg n => n != 0
  | .strArg s => s != ""

/-- Evaluates `e.code or 0` (src/argparse_demo.py line 291): the payload if truthy,
otherwise the int `0`. -/
def orZero (c : PyExitArg) : PyExitArg :=
  if pyTruthy c then c else .intArg 0

/-- Value of a run of decimal digits, `none` if empty or a non-digit
appears. -/
def digitsVal (ds : List Char) : Option Int :=
  if ds ≠ [] ∧ ds.all Char.isDigit then
    some (ds.foldl (fun a c => 10 * a + ((c.toNat : Int) - 48)) 0)
  else
    none

/-- Strip leading and trailing whitespace from a character list. -/
def stripSpaces (ds : List Char) : List Char :=
  ((ds.dropWhile Char.isWhitespace).reverse.dropWhile Char.isWhitespace).reverse

/-- Python `int(s)` on a string: strips surrounding whitespace, accepts an
optional sign followed by decimal digits, raises `ValueError` (here: `none`)
otherwise. (Digit-grouping underscores are omitted; no argument in this
program contains them.) -/
def pyIntOfString (s : String) : Option Int :=
  match stripSpaces s.toList with
  | [] => none
  | '+' :: ds => digitsVal ds
  | '-' :: ds => (digitsVal ds).map (fun n => -n)
  | ds => digitsVal ds

/-- Python `int(x)` on a `SystemExit` payload: identity on ints, string
parsing on strings (`none` = `ValueError`/`TypeError` raised). -/
def pyInt : PyExitArg → Option Int
  | .intArg n => some n
  | .strArg s => pyIntOfString s
  | .noneArg => none

/-- What a subcommand handler invocation does, as observed by `main`'s
`try` block. -/
inductive HandlerOutcome where
  | ok
  | sysExit (code : PyExitArg)
  | exn (msg : String)
deriving DecidableEq, Repr

/-- Embeds the dispatch of `main` after `parse_args` (src/argparse_demo.py lines
281-295): missing `func` prints help and returns 1; a normal handler return
gives 0; `except SystemExit` evaluates `int(e.code or 0)` — a non-numeric
payload makes that `int` call raise a `ValueError` inside the `except` block,
which the sibling `except Exception` does not catch, so it escapes `main`
(`.error`); any other handler exception returns 1. -/
def main_dispatch (hasFunc : Bool) (run : HandlerOutcome) : Except String Int :=
  if hasFunc = false then .ok 1
  else
    match run with
    | .ok => .ok 0
    | .sysExit c =>
      match pyInt (orZero c) with
      | some n => .ok n
      | none => .error "ValueError"
    | .exn _ => .ok 1

/-- Outcome of `handle_greet` (src/argparse_demo.py lines 175-179): when
`times < 1` it raises `SystemExit` carrying the Russian message string;
otherwise it runs to completion. -/
def handle_greet_outcome (times : Int) : HandlerOutcome :=
  if times < 1 then
    .sysExit (.strArg "Количество повторов должно быть >= 1")
  else
    .ok

end ArgparseDemo

namespace TaskTracker

/-! Helper lemmas about `maxIdFrom`, `nextIdList`, `findTask` and
`updateFirst`. -/

theorem le_maxIdFrom_init (b : Int) (ts : List Task) : b ≤ maxIdFrom b ts := by
  induction ts generalizing b with
  | nil => exact le_refl b
  | cons t ts ih =>
    simp only [maxIdFrom, List.foldl_cons]
    exact le_trans (le_max_left b t.id) (ih (max b t.id))

theorem le_maxIdFrom_mem {u : Task} {ts : List Task} (h : u ∈ ts) (b : Int) :
    u.id ≤ maxIdFrom b ts := by
  induction ts generalizing b with
  | nil => cases h
  | cons t ts ih =>
    simp only [maxIdFrom, List.foldl_cons]
    rcases List.mem_cons.mp h with h | h
    · subst h
      exact le_trans (le_max_right b u.id) (le_maxIdFrom_init _ ts)
    · exact ih h (max b t.id)

theorem maxIdFrom_le {b c : Int} {ts : List Task} (hb : b ≤ c)
    (h : ∀ u ∈ ts, u.id ≤ c) : maxIdFrom b ts ≤ c := by
  induction ts generalizing b with
  | nil => exact hb
  | cons t ts ih =>
    simp only [maxIdFrom, List.foldl_cons]
    exact ih (max_le hb (h t (List.mem_cons_self t ts)))
      (fun u hu => h u (List.mem_cons_of_mem t hu))

/-- Every id in the collection is strictly below `next_id`. -/
theorem id_lt_nextIdList {t : Task} {tasks : List Task} (h : t ∈ tasks) :
    t.id < nextIdList tasks := by
  cases tasks with
  | nil => cases h
  | cons u us =>
    simp only [nextIdList]
    rcases List.mem_cons.mp h with h | h
    · subst h
      exact lt_of_le_of_lt (le_maxIdFrom_init t.id us) (lt_add_one _)
    · exact lt_of_le_of_lt (le_maxIdFrom_mem h u.id) (lt_add_one _)

/-- Appending a task whose id dominates the collection makes `next_id` that
id plus one. -/
theorem nextIdList_snoc {tasks : List Task} {t : Task}
    (h : ∀ u ∈ tasks, u.id ≤ t.id) :
    nextIdList (tasks ++ [t]) = t.id + 1 := by
  cases tasks with
  | nil => rfl
  | cons u us =>
    simp only [List.cons_append, nextIdList, maxIdFrom, List.foldl_append,
      List.foldl_cons, List.foldl_nil]
    have h1 : maxIdFrom u.id us ≤ t.id :=
      maxIdFrom_le (h u (List.mem_cons_self u us))
        (fun v hv => h v (List.mem_cons_of_mem u hv))
    simp only [maxIdFrom] at h1
    omega

/-- After one `add`, `next_id` has grown by exactly one. -/
theorem next_id_after_add (repo : TaskRepository) (title descr : String)
    (prio : Int) (now : String) :
    ((repo.add title descr prio now).2).next_id = repo.next_id + 1 := by
  show nextIdList (repo.tasks ++ [(repo.add title descr prio now).1])
    = repo.next_id + 1
  exact nextIdList_snoc (fun u hu => le_of_lt (id_lt_nextIdList hu))

theorem findTask_eq_none {tasks : List Task} {tid : Int}
    (h : ∀ t ∈ tasks, t.id ≠ tid) : findTask tasks tid = none := by
  induction tasks with
  | nil => rfl
  | cons t ts ih =>
    simp only [findTask, if_neg (h t (List.mem_cons_self t ts))]
    exact ih (fun u hu => h u (List.mem_cons_of_mem t hu))

/-- Every id assigned along a sequence of `add` calls is at least the
starting state's `next_id`. -/
theorem addSeq_ids_ge (inputs : List AddInput) (repo : TaskRepository) :
    ∀ p ∈ addSeq repo inputs, repo.next_id ≤ p.2 := by
  induction inputs generalizing repo with
  | nil => intro p hp; cases hp
  | cons i rest ih =>
    obtain ⟨title, descr, prio, now⟩ := i
    intro p hp
    rcases List.mem_cons.mp hp with hp | hp
    · subst hp; exact le_refl _
    · have h1 := ih ((repo.add title descr prio now).2) p hp
      rw [next_id_after_add] at h1
      omega

/-- The ids assigned along a sequence of `add` calls are strictly
increasing. -/
theorem addSeq_ids_sorted (inputs : List AddInput) (repo : TaskRepository) :
    ((addSeq repo inputs).map Prod.snd).Pairwise (· < ·) := by
  induction inputs generalizing repo with
  | nil => exact List.Pairwise.nil
  | cons i rest ih =>
    obtain ⟨title, descr, prio, now⟩ := i
    simp only [addSeq, List.map_cons]
    refine List.pairwise_cons.mpr ⟨?_, ih _⟩
    intro x hx
    rcases List.mem_map.mp hx with ⟨p, hp, hpx⟩
    have h1 := addSeq_ids_ge rest ((repo.add title descr prio now).2) p hp
    rw [next_id_after_add] at h1
    show repo.next_id < x
    omega

theorem findTask_updateFirst {tasks : List Task} {tid : Int} {t : Task}
    (h : findTask tasks tid = some t) (st now : String) :
    findTask (updateFirst tasks tid st now) tid
      = some { t with status := st, updated_at := now } := by
  induction tasks with
  | nil => cases h
  | cons u us ih =>
    by_cases hu : u.id = tid
    · simp only [findTask, if_pos hu, Option.some.injEq] at h
      subst h
      simp only [updateFirst, if_pos hu, findTask]
    · simp only [findTask, if_neg hu] at h
      simp only [updateFirst, if_neg hu, findTask]
      exact ih h

theorem mem_updateFirst_of_ne {u : Task} {tasks : List Task} {tid : Int}
    (hu : u ∈ tasks) (hne : u.id ≠ tid) (st now : String) :
    u ∈ updateFirst tasks tid st now := by
  induction tasks with
  | nil => cases hu
  | cons v vs ih =>
    by_cases hv : v.id = tid
    · simp only [updateFirst, if_pos hv]
      rcases List.mem_cons.mp hu with hu | hu
      · exact absurd (hu ▸ hne) (by simp [hv])
      · exact List.mem_cons_of_mem _ hu
    · simp only [updateFirst, if_neg hv]
      rcases List.mem_cons.mp hu with hu | hu
      · exact hu ▸ List.mem_cons_self _ _
      · exact List.mem_cons_of_mem _ (ih hu)

end TaskTracker

open TaskTracker

/-- C1: along any sequence of `add` calls from any starting state, the
assigned ids are pairwise distinct, distinct from every pre-existing id, and
each assigned id is strictly greater than every id present in the collection
just before that `add` (hence strictly greater than the prior maximum). -/
theorem add_sequence_ids_fresh (repo : TaskRepository)
    (inputs : List AddInput) :
    ((addSeq repo inputs).map Prod.snd).Pairwise (· ≠ ·) ∧
    (∀ p ∈ addSeq repo inputs, ∀ t ∈ repo.tasks, p.2 ≠ t.id) ∧
    (∀ p ∈ addSeq repo inputs, ∀ t ∈ p.1, t.id < p.2) := by
  refine ⟨(addSeq_ids_sorted inputs repo).imp ne_of_lt, ?_, ?_⟩
  · induction inputs generalizing repo with
    | nil => intro p hp; cases hp
    | cons i rest ih =>
      obtain ⟨title, descr, prio, now⟩ := i
      intro p hp t ht
      rcases List.mem_cons.mp hp with hp | hp
      · subst hp
        exact (ne_of_lt (id_lt_nextIdList ht)).symm
      · refine ih ((repo.add title descr prio now).2) p hp t ?_
        exact List.mem_append_left _ ht
  · induction inputs generalizing repo with
    | nil => intro p hp; cases hp
    | cons i rest ih =>
      obtain ⟨title, descr, prio, now⟩ := i
      intro p hp t ht
      rcases List.mem_cons.mp hp with hp | hp
      · subst hp
        exact id_lt_nextIdList ht
      · exact ih ((repo.add title descr prio now).2) p hp t ht

/-- C2: the id `add` assigns next equals `max(existing ids) + 1` when the
collection is non-empty, and `1` when it is empty (here phrased with
`List.max?`, which is `none` exactly on the empty collection). -/
theorem next_assigned_id_eq_max_plus_one (repo : TaskRepository)
    (title descr : String) (prio : Int) (now : String) :
    (repo.add title descr prio now).1.id
      = ((repo.tasks.map Task.id).max?.map (· + 1)).getD 1 := by
  show repo.next_id = _
  cases h : repo.tasks with
  | nil => simp [TaskRepository.next_id, h, nextIdList]
  | cons t ts =>
    have hmax : (t.id :: ts.map Task.id).max?
        = some ((ts.map Task.id).foldl max t.id) := rfl
    simp only [TaskRepository.next_id, h, nextIdList, List.map_cons, hmax,
      Option.map_some, Option.getD_some, maxIdFrom]
    rw [List.foldl_map]
    rfl

/-- C3: `add` with a priority in `[1,5]` returns a task carrying the given
title, description and priority, with status `"todo"`, equal creation and
update timestamps, the freshly computed id, and the new task is appended at
the end of the in-memory collection. -/
theorem add_returns_fresh_todo_task (repo : TaskRepository)
    (title descr : String) (prio : Int) (now : String)
    (h1 : 1 ≤ prio) (h5 : prio ≤ 5) :
    (repo.add title descr prio now).1.title = title ∧
    (repo.add title descr prio now).1.description = descr ∧
    (repo.add title descr prio now).1.priority = prio ∧
    (repo.add title descr prio now).1.status = "todo" ∧
    (repo.add title descr prio now).1.created_at
      = (repo.add title descr prio now).1.updated_at ∧
    (repo.add title descr prio now).1.id = repo.next_id ∧
    (repo.add title descr prio now).2.tasks
      = repo.tasks ++ [(repo.add title descr prio now).1] :=
  ⟨rfl, rfl, rfl, rfl, rfl, rfl, rfl⟩

/-- C3 witness: `add("X","",3)` on an empty store yields a task with id 1,
status `"todo"`, and `created_at == updated_at`. -/
theorem add_returns_fresh_todo_task_witness :
    (1 : Int) ≤ 3 ∧ (3 : Int) ≤ 5 ∧
    ((TaskRepository.add ⟨[], .absent⟩ "X" "" 3 "2024-01-01T00:00:00").1.title
        = "X" ∧
      (TaskRepository.add ⟨[], .absent⟩ "X" "" 3 "2024-01-01T00:00:00").1.description
        = "" ∧
      (TaskRepository.add ⟨[], .absent⟩ "X" "" 3 "2024-01-01T00:00:00").1.priority
        = 3 ∧
      (TaskRepository.add ⟨[], .absent⟩ "X" "" 3 "2024-01-01T00:00:00").1.status
        = "todo" ∧
      (TaskRepository.add ⟨[], .absent⟩ "X" "" 3 "2024-01-01T00:00:00").1.created_at
        = (TaskRepository.add ⟨[], .absent⟩ "X" "" 3 "2024-01-01T00:00:00").1.updated_at ∧
      (TaskRepository.add ⟨[], .absent⟩ "X" "" 3 "2024-01-01T00:00:00").1.id
        = 1 ∧
      (TaskRepository.add ⟨[], .absent⟩ "X" "" 3 "2024-01-01T00:00:00").2.tasks
        = [] ++ [(TaskRepository.add ⟨[], .absent⟩ "X" "" 3 "2024-01-01T00:00:00").1]) :=
  ⟨by decide, by decide,
    add_returns_fresh_todo_task ⟨[], .absent⟩ "X" "" 3 "2024-01-01T00:00:00"
      (by decide) (by decide)⟩

/-- C4: persisting a collection (`_save`, which serializes every task with
`asdict`) and then constructing a store from that document (`_load`, which
maps `from_dict`) yields an identical collection — same tasks, same seven
fields, same order — with no load error reported. -/
theorem save_load_round_trip (repo : TaskRepository) :
    (TaskRepository.init (repo._save).file).1.tasks = repo.tasks ∧
    (TaskRepository.init (repo._save).file).2 = none := by
  constructor
  · show (repo.tasks.map Task.asdict).map Task.from_dict = repo.tasks
    have h : ∀ t : Task, Task.from_dict (Task.asdict t) = t := fun t => rfl
    simp only [List.map_map, Function.comp_def, h]
    exact List.map_id _
  · rfl

/-- C5: `update_status` on an unknown id returns `false` and leaves the
repository (collection and file) untouched, raising nothing (the embedding is
total); on a known id it returns `true`, the task found under that id now
carries the new status and an `updated_at` equal to the current clock reading
— hence at least the previous `updated_at` whenever the clock is monotone —
the whole collection is persisted, and every other task is still in the
collection. -/
theorem update_status_contract (repo : TaskRepository) (tid : Int)
    (st now : String) :
    (repo.find tid = none →
      repo.update_status tid st now = (false, repo)) ∧
    (∀ t, repo.find tid = some t →
      (repo.update_status tid st now).1 = true ∧
      ((repo.update_status tid st now).2).find tid
        = some { t with status := st, updated_at := now } ∧
      (t.updated_at ≤ now →
        t.updated_at
          ≤ ({ t with status := st, updated_at := now } : Task).updated_at) ∧
      (repo.update_status tid st now).2.file
        = .valid ((repo.update_status tid st now).2.tasks.map Task.asdict) ∧
      (∀ u ∈ repo.tasks, u.id ≠ tid →
        u ∈ (repo.update_status tid st now).2.tasks)) := by
  constructor
  · intro h
    simp only [TaskRepository.update_status]
    rw [show findTask repo.tasks tid = none from h]
  · intro t h
    have h' : findTask repo.tasks tid = some t := h
    have hred : repo.update_status tid st now
        = (true, TaskRepository._save
            { repo with tasks := updateFirst repo.tasks tid st now }) := by
      simp only [TaskRepository.update_status, h']
    rw [hred]
    refine ⟨rfl, findTask_updateFirst h' st now, fun hc => hc, rfl, ?_⟩
    intro u hu hne
    exact mem_updateFirst_of_ne hu hne st now

/-- C5 witness: on the one-task fixture store, updating the status of the
missing id 2 returns `false` and changes nothing; updating id 1 returns
`true`, stores the new status with the refreshed timestamp, and persists. -/
theorem update_status_contract_witness :
    TaskRepository.update_status sampleRepo 2 "done" "2024-01-01T00:00:00"
      = (false, sampleRepo) ∧
    (TaskRepository.update_status sampleRepo 1 "done" "2024-01-01T00:00:00").1
      = true ∧
    (TaskRepository.update_status sampleRepo 1 "done" "2024-01-01T00:00:00").2.find 1
      = some { sampleTask with
                status := "done", updated_at := "2024-01-01T00:00:00" } ∧
    sampleTask.updated_at
      ≤ ({ sampleTask with
            status := "done", updated_at := "2024-01-01T00:00:00" } : Task).updated_at ∧
    (TaskRepository.update_status sampleRepo 1 "done" "2024-01-01T00:00:00").2.file
      = .valid ((TaskRepository.update_status sampleRepo 1 "done"
          "2024-01-01T00:00:00").2.tasks.map Task.asdict) := by
  have H := (update_status_contract sampleRepo 1 "done" "2024-01-01T00:00:00").2
    sampleTask rfl
  exact ⟨(update_status_contract sampleRepo 2 "done" "2024-01-01T00:00:00").1 rfl,
    H.1, H.2.1, H.2.2.1 (le_refl _), H.2.2.2.1⟩

/-- C6: `delete` on a present id returns `true`, the remaining collection is
exactly the tasks whose id differs, and the collection is persisted; on an
absent id it returns `false` and the whole repository state — collection and
backing file alike (so no persistence write happened) — is unchanged. -/
theorem delete_contract (repo : TaskRepository) (tid : Int) :
    ((∃ t ∈ repo.tasks, t.id = tid) →
      (repo.delete tid).1 = true ∧
      (repo.delete tid).2.tasks = repo.tasks.filter (fun t => t.id ≠ tid) ∧
      (repo.delete tid).2.file
        = .valid ((repo.delete tid).2.tasks.map Task.asdict)) ∧
    ((∀ t ∈ repo.tasks, t.id ≠ tid) →
      (repo.delete tid).1 = false ∧ (repo.delete tid).2 = repo) := by
  constructor
  · rintro ⟨t, ht, htid⟩
    have hlen : (repo.tasks.filter (fun t => t.id ≠ tid)).length
        ≠ repo.tasks.length := by
      intro hlen
      have heq := (List.filter_sublist repo.tasks).eq_of_length hlen
      have ht' : t ∈ repo.tasks.filter (fun t => decide (t.id ≠ tid)) := by
        rw [heq]; exact ht
      exact of_decide_eq_true (List.mem_filter.mp ht').2 htid
    have hred : repo.delete tid
        = (true, TaskRepository._save
            { repo with tasks := repo.tasks.filter (fun t => t.id ≠ tid) }) := by
      simp only [TaskRepository.delete, if_neg hlen]
    rw [hred]
    exact ⟨rfl, rfl, rfl⟩
  · intro h
    have heq : repo.tasks.filter (fun t => t.id ≠ tid) = repo.tasks :=
      List.filter_eq_self.mpr (fun a ha => decide_eq_true (h a ha))
    have hlen : (repo.tasks.filter (fun t => t.id ≠ tid)).length
        = repo.tasks.length := by rw [heq]
    have hred : repo.delete tid = (false, repo) := by
      simp only [TaskRepository.delete, if_pos hlen]
    rw [hred]
    exact ⟨rfl, rfl⟩

/-- C6 witness: on the one-task fixture store, deleting id 1 succeeds and
persists the emptied collection; deleting id 2 returns `false` and leaves the
repository exactly as it was. -/
theorem delete_contract_witness :
    (TaskRepository.delete sampleRepo 1).1 = true ∧
    (TaskRepository.delete sampleRepo 1).2.tasks
      = sampleRepo.tasks.filter (fun t => t.id ≠ 1) ∧
    (TaskRepository.delete sampleRepo 1).2.file
      = .valid ((TaskRepository.delete sampleRepo 1).2.tasks.map Task.asdict) ∧
    (TaskRepository.delete sampleRepo 2).1 = false ∧
    (TaskRepository.delete sampleRepo 2).2 = sampleRepo := by
  have H1 := (delete_contract sampleRepo 1).1
    ⟨sampleTask, List.mem_cons_self _ _, rfl⟩
  have H2 := (delete_contract sampleRepo 2).2 (by decide)
  exact ⟨H1.1, H1.2.1, H1.2.2, H2.1, H2.2⟩

/-- C7: store construction is a total function (never fails): an absent
backing document yields an empty collection with no error reported, and a
malformed or unreadable document yields an empty collection with the failure
reported to the caller. -/
theorem construction_total_fallback (file : FileState) :
    (file = .absent →
      TaskRepository.init file = ({ tasks := [], file := file }, none)) ∧
    (∀ e, file = .malformed e →
      (TaskRepository.init file).1.tasks = [] ∧
      (TaskRepository.init file).2 = some e) := by
  constructor
  · rintro rfl; rfl
  · rintro e rfl; exact ⟨rfl, rfl⟩

/-- C7 witness: construction from an absent file and from a malformed file
(the message a JSON parser would raise) both give an empty collection; the
malformed case reports the failure. -/
theorem construction_total_fallback_witness :
    TaskRepository.init .absent = ({ tasks := [], file := .absent }, none) ∧
    (TaskRepository.init
        (.malformed "Expecting value: line 1 column 1 (char 0)")).1.tasks
      = [] ∧
    (TaskRepository.init
        (.malformed "Expecting value: line 1 column 1 (char 0)")).2
      = some "Expecting value: line 1 column 1 (char 0)" := by
  have H := (construction_total_fallback
    (.malformed "Expecting value: line 1 column 1 (char 0)")).2
    "Expecting value: line 1 column 1 (char 0)" rfl
  exact ⟨(construction_total_fallback .absent).1 rfl, H.1, H.2⟩

/-- C9: after `delete(id)`, no task with that id remains in the collection —
`delete` filters out every matching task, not just the first — so a
subsequent `find(id)` returns nothing, whatever the starting collection
(including ones loaded from a document with duplicated ids). -/
theorem delete_removes_every_matching_id (repo : TaskRepository) (tid : Int) :
    (∀ t ∈ (repo.delete tid).2.tasks, t.id ≠ tid) ∧
    (repo.delete tid).2.find tid = none := by
  have key : ∀ t ∈ (repo.delete tid).2.tasks, t.id ≠ tid := by
    intro t ht
    by_cases hlen : (repo.tasks.filter (fun t => t.id ≠ tid)).length
        = repo.tasks.length
    · have heq := (List.filter_sublist repo.tasks).eq_of_length hlen
      simp only [TaskRepository.delete, if_pos hlen] at ht
      have ht' : t ∈ repo.tasks.filter (fun t => decide (t.id ≠ tid)) := by
        rw [heq]; exact ht
      exact of_decide_eq_true (List.mem_filter.mp ht').2
    · simp only [TaskRepository.delete, TaskRepository._save, if_neg hlen] at ht
      exact of_decide_eq_true (List.mem_filter.mp ht).2
  exact ⟨key, findTask_eq_none key⟩

/-- C9 witness: deleting id 1 from a store holding two tasks that both carry
id 1 (as a document with duplicated ids would load) leaves a collection in
which `find 1` returns nothing. -/
theorem delete_removes_every_matching_id_witness :
    (TaskRepository.delete
        { tasks := [sampleTask, { sampleTask with title := "U" }],
          file := .absent } 1).2.find 1 = none :=
  (delete_removes_every_matching_id
    { tasks := [sampleTask, { sampleTask with title := "U" }],
      file := .absent } 1).2

/-- C10: the demo CLI's dispatch returns 0 on a successful handler run, 1
when no subcommand handler is attached or on an unexpected exception, and the
carried code for an integer-valued `SystemExit`; but the `SystemExit` its own
handlers actually raise carries a message string (here: `handle_greet` with
`times = 0`), and `int(e.code or 0)` then raises an uncaught `ValueError`
instead of producing an exit code. -/
theorem main_dispatch_exit_codes :
    ArgparseDemo.main_dispatch true (ArgparseDemo.handle_greet_outcome 0)
      = .error "ValueError" ∧
    ArgparseDemo.main_dispatch true .ok = .ok 0 ∧
    ArgparseDemo.main_dispatch false .ok = .ok 1 ∧
    (∀ m, ArgparseDemo.main_dispatch true (.exn m) = .ok 1) ∧
    (∀ n, ArgparseDemo.main_dispatch true (.sysExit (.intArg n)) = .ok n) := by
  refine ⟨rfl, rfl, rfl, fun m => rfl, fun n => ?_⟩
  by_cases hn : n = 0
  · subst hn; rfl
  · simp [ArgparseDemo.main_dispatch, ArgparseDemo.orZero,
      ArgparseDemo.pyTruthy, ArgparseDemo.pyInt, hn]

/-- C1 witness: starting from the one-task fixture store (whose single task
has id 1), the first `add` is assigned id 2, strictly above the fixture
task's id, and the two ids assigned by a two-`add` sequence are distinct. -/
theorem add_sequence_ids_fresh_witness :
    sampleTask.id
        < ((sampleRepo.tasks : List Task), (2 : Int)).2 ∧
    ((addSeq sampleRepo
        [("A", "", 1, "2024-01-02T00:00:00"),
         ("B", "", 2, "2024-01-03T00:00:00")]).map Prod.snd).Pairwise
      (· ≠ ·) := by
  constructor
  · exact (add_sequence_ids_fresh sampleRepo
      [("A", "", 1, "2024-01-02T00:00:00")]).2.2
      (sampleRepo.tasks, 2) (by decide) sampleTask (by decide)
  · exact (add_sequence_ids_fresh sampleRepo
      [("A", "", 1, "2024-01-02T00:00:00"),
       ("B", "", 2, "2024-01-03T00:00:00")]).1
